import Mathlib

/-!
Shallow embedding of `chainer/links/connection/gru.py` and
`chainer/initializers/orthogonal.py` (repository prajdabre/chainer), together
with theorems settling the specification claims about them.

Batched arrays (chainer Variables' data) are modelled as `List (List ℚ)`:
a batch of row vectors with exact rational entries.  The element-wise
sigmoid and tanh nonlinearities live in `chainer.functions.activation`,
outside this repository fragment; they are element-wise maps supplied by a
collaborator, so every GRU operation below is parametrised by two abstract
scalar functions `sg tn : ℚ → ℚ` applied element-wise, exactly as the source
applies `sigmoid.sigmoid` and `tanh.tanh`.
-/

/-- Row vector of rational entries (one sample of a batch). -/
abbrev Vec : Type := List ℚ

/-- Batched 2-D array: a list of row vectors (batch × features). -/
abbrev Mat : Type := List Vec

/-- Element-wise binary operation on two batched arrays (chainer broadcasted
arithmetic on same-shape arrays). -/
def map2 (f : ℚ → ℚ → ℚ) (a b : Mat) : Mat :=
  List.zipWith (List.zipWith f) a b

/-- Element-wise addition `a + b`. -/
def matAdd (a b : Mat) : Mat := map2 (fun s t => s + t) a b

/-- Element-wise (Hadamard) product `a * b`. -/
def matHad (a b : Mat) : Mat := map2 (fun s t => s * t) a b

/-- Element-wise map over a batched array. -/
def matMap (f : ℚ → ℚ) (m : Mat) : Mat := m.map (List.map f)

/-- Element-wise `1 - z` (the `(1 - z)` factor of the GRU update). -/
def oneSub (m : Mat) : Mat := matMap (fun t => 1 - t) m

/-- Dot product of two vectors. -/
def dot (u v : Vec) : ℚ := (List.zipWith (fun s t => s * t) u v).sum

/-- Modelled from the spec: `LinearUnit` (§3) — `chainer.links.connection.linear.Linear`
is not part of this repository fragment.  It owns one weight matrix of shape
(out_dim, in_dim) and a bias vector of length out_dim, and maps an input
vector batch to an output vector batch via the affine transform
`y_j = W_j · x + b_j`. -/
structure Linear where
  W : Mat
  b : Vec
deriving DecidableEq

/-- Affine application of a linear unit to a batch: each input row `v` is sent
to the row of `W_j · v + b_j` over the output coordinates `j`. -/
def Linear.apply (l : Linear) (x : Mat) : Mat :=
  x.map (fun v => List.zipWith (fun w bj => dot w v + bj) l.W l.b)

/-- Weight container of `GRUBase` (gru.py lines 13-32): six linear units
`W_r, U_r, W_z, U_z, W, U`, where the `W*` map input→hidden and the `U*`
map hidden→hidden. -/
structure GRUBase where
  W_r : Linear
  U_r : Linear
  W_z : Linear
  U_z : Linear
  W : Linear
  U : Linear
deriving DecidableEq

/-- Stateless `GRU.__call__(h, x)` (gru.py lines 79-84), in explicit
state-passing style: the returned pair is (the result `h_new`, the cell after
the call).  The method body never assigns to `self`, so the second component
is the unchanged cell.  `sg` and `tn` are the element-wise sigmoid and tanh
collaborators. -/
def GRU.call (g : GRUBase) (sg tn : ℚ → ℚ) (h x : Mat) : Mat × GRUBase :=
  let r := matMap sg (matAdd (g.W_r.apply x) (g.U_r.apply h))
  let z := matMap sg (matAdd (g.W_z.apply x) (g.U_z.apply h))
  let h_bar := matMap tn (matAdd (g.W.apply x) (g.U.apply (matHad r h)))
  let h_new := matAdd (matHad (oneSub z) h) (matHad z h_bar)
  (h_new, g)

/-- Modelled from the spec: the closed-form recurrence of §4.2,
`r = sigmoid(W_r(x) + U_r(h))`, `z = sigmoid(W_z(x) + U_z(h))`,
`h_bar = tanh(W(x) + U(r ⊙ h))`, `h' = (1 - z) ⊙ h + z ⊙ h_bar`,
recomputed independently from the same weight matrices. -/
def gruRecurrence (g : GRUBase) (sg tn : ℚ → ℚ) (h x : Mat) : Mat :=
  let r := matMap sg (matAdd (g.W_r.apply x) (g.U_r.apply h))
  let z := matMap sg (matAdd (g.W_z.apply x) (g.U_z.apply h))
  let h_bar := matMap tn (matAdd (g.W.apply x) (g.U.apply (matHad r h)))
  matAdd (matHad (oneSub z) h) (matHad z h_bar)

/-- Device tag of an array or cell: the `numpy` (CPU) vs `cupy` (GPU) backend
selected by `self.xp`. -/
inductive Device where
  | cpu : Device
  | gpu : Device
deriving DecidableEq

/-- A chainer `Variable` as the GRU state code sees it: array data plus the
device the data currently resides on. -/
structure Variable where
  data : Mat
  device : Device
deriving DecidableEq

/-- Transfer of a variable to CPU (`Variable.to_cpu`): the values are
preserved, the device becomes CPU. -/
def Variable.to_cpu (v : Variable) : Variable := { v with device := Device.cpu }

/-- Transfer of a variable to GPU (`Variable.to_gpu`): the values are
preserved, the device becomes GPU. -/
def Variable.to_gpu (v : Variable) : Variable := { v with device := Device.gpu }

/-- `StatefulGRU` (gru.py lines 87-179): the six weights, the device the cell
resides on, and the internal hidden state `self.h`, which is `None` before
the first call and after `reset_state`. -/
structure StatefulGRU where
  base : GRUBase
  device : Device
  h : Option Variable
deriving DecidableEq

/-- `StatefulGRU.__init__` (lines 136-141): it ends with `self.reset_state()`,
so a freshly constructed cell has absent state. -/
def StatefulGRU.init (g : GRUBase) (d : Device) : StatefulGRU :=
  { base := g, device := d, h := none }

/-- `StatefulGRU.reset_state` (lines 162-163): clears the state to absent. -/
def StatefulGRU.reset_state (s : StatefulGRU) : StatefulGRU :=
  { s with h := none }

/-- `StatefulGRU.set_state(h)` (lines 153-160): asserts the argument is a
`Variable` (type-level here), transfers it in place to the cell's device
(`to_cpu` when `self.xp` is numpy, `to_gpu` otherwise), and stores that very
variable as `self.h`.  The returned pair is (cell after the call, the
caller's variable after the in-place transfer). -/
def StatefulGRU.set_state (s : StatefulGRU) (hv : Variable) : StatefulGRU × Variable :=
  let h2 := if s.device = Device.cpu then hv.to_cpu else hv.to_gpu
  ({ s with h := some h2 }, h2)

/-- `StatefulGRU.__call__(x)` (lines 165-179): `z` and `h_bar` start from
`W_z(x)` and `W(x)`; only when `self.h` is present are the recurrent
`U_r`, `U_z`, `U` contributions added (and only then is `r` computed); the
update is `h_new = z * h_bar`, plus `(1 - z) * h` when the state is present;
`h_new` is stored as the new state and returned. -/
def StatefulGRU.call (s : StatefulGRU) (sg tn : ℚ → ℚ) (x : Mat) : Mat × StatefulGRU :=
  match s.h with
  | none =>
    let z := matMap sg (s.base.W_z.apply x)
    let h_bar := matMap tn (s.base.W.apply x)
    let h_new := matHad z h_bar
    (h_new, { s with h := some { data := h_new, device := s.device } })
  | some hv =>
    let r := matMap sg (matAdd (s.base.W_r.apply x) (s.base.U_r.apply hv.data))
    let z := matMap sg (matAdd (s.base.W_z.apply x) (s.base.U_z.apply hv.data))
    let h_bar := matMap tn (matAdd (s.base.W.apply x) (s.base.U.apply (matHad r hv.data)))
    let h_new := matAdd (matHad z h_bar) (matHad (oneSub z) hv.data)
    (h_new, { s with h := some { data := h_new, device := s.device } })

/-- Modelled from the spec: the first-call formula of §4.3 for an absent
state — `z = sigmoid(W_z(x))`, `h_bar = tanh(W(x))`, `h' = z ⊙ h_bar`. -/
def statefulFirstCall (g : GRUBase) (sg tn : ℚ → ℚ) (x : Mat) : Mat :=
  matHad (matMap sg (g.W_z.apply x)) (matMap tn (g.W.apply x))

/-- Modelled from the spec: `split_axis(h, n, 1, True)` (§4.4) —
`chainer.functions.array.split_axis` is not part of this repository
fragment.  It splits a concatenated hidden tensor along the feature axis
into `n` equal consecutive slices, preserving order: slice `i` of a row
holds its entries from `i * (len / n)` for `len / n` entries. -/
def splitCols (m : Mat) (n : Nat) : List Mat :=
  (List.range n).map (fun i =>
    m.map (fun row => ((row.drop (i * (row.length / n))).take (row.length / n))))

/-- Modelled from the spec: `concat(h_list, 1)` (§4.4) —
`chainer.functions.array.concat` is not part of this repository fragment.
It concatenates a list of batches along the feature axis: row `i` of the
result is the join of the rows `i` of the inputs, in order. -/
def concatCols (ms : List Mat) : Mat :=
  match ms with
  | [] => []
  | m :: rest => rest.foldl (fun acc m2 => List.zipWith (fun u v => u ++ v) acc m2) m

/-- `StackedStatelessGRU` (gru.py lines 182-231): an ordered list of
stateless GRU cells plus the recorded `num_layers`. -/
structure StackedStatelessGRU where
  layers : List GRUBase
  num_layers : Nat
deriving DecidableEq

/-- Loop body of `StackedStatelessGRU.__call__` (lines 225-230): walk the
(layer, hidden-slice) pairs, feeding each layer the running `h_curr` as
input and its own slice as hidden, collecting every output. -/
def stackStep (sg tn : ℚ → ℚ) : List (GRUBase × Mat) → Mat → List Mat
  | [], _ => []
  | (g, hi) :: rest, h_curr =>
    (GRU.call g sg tn hi h_curr).1 :: stackStep sg tn rest (GRU.call g sg tn hi h_curr).1

/-- `StackedStatelessGRU.__call__(h, x)` (lines 213-231): split `h` into
`num_layers` slices along axis 1, run the layers in order threading each
output into the next layer's input, and concatenate all outputs along
axis 1. -/
def StackedStatelessGRU.call (st : StackedStatelessGRU) (sg tn : ℚ → ℚ) (h x : Mat) : Mat :=
  concatCols (stackStep sg tn (st.layers.zip (splitCols h st.num_layers)) x)

/-- `StackedStatefulGRU` (gru.py lines 234-303): an ordered list of stateful
GRU cells plus the recorded `num_layers`. -/
structure StackedStatefulGRU where
  layers : List StatefulGRU
  num_layers : Nat
deriving DecidableEq

/-- Loop body of `StackedStatefulGRU.__call__` (lines 298-302): feed the
running value through each stateful layer in order, returning the collected
outputs and the updated layers. -/
def runLayers (sg tn : ℚ → ℚ) : List StatefulGRU → Mat → List Mat × List StatefulGRU
  | [], _ => ([], [])
  | l :: rest, h_curr =>
    let p := l.call sg tn h_curr
    let q := runLayers sg tn rest p.1
    (p.1 :: q.1, p.2 :: q.2)

/-- Python slice `h_list[-top_n:]` used at gru.py line 303: for a positive
count it keeps the last `top_n` elements, but for `top_n = 0` the slice
`[-0:]` is `[0:]`, the whole list. -/
def lastSlice (l : List Mat) (top_n : Nat) : List Mat :=
  if top_n = 0 then l else l.drop (l.length - top_n)

/-- `StackedStatefulGRU.__call__(x, top_n=None)` (lines 281-303): default
`top_n` to `num_layers`, run all layers in order threading outputs and
updating each layer's state, and concatenate `h_list[-top_n:]` along the
feature axis. -/
def StackedStatefulGRU.call (st : StackedStatefulGRU) (sg tn : ℚ → ℚ) (x : Mat)
    (top_n : Option Nat) : Mat × StackedStatefulGRU :=
  let n := top_n.getD st.num_layers
  let p := runLayers sg tn st.layers x
  (concatCols (lastSlice p.1 n), { st with layers := p.2 })

/-- Modelled from the spec: the per-layer output sequence of §4.5 — layer 0
consumes the external input, each subsequent layer consumes the previous
layer's output, every layer's state updating as in §4.3. -/
def stackOutputs (sg tn : ℚ → ℚ) : List StatefulGRU → Mat → List Mat
  | [], _ => []
  | l :: rest, h_curr => (l.call sg tn h_curr).1 :: stackOutputs sg tn rest (l.call sg tn h_curr).1

/-- Modelled from the spec: the per-layer updated cells of §4.5, layer by
layer under the same feeding discipline as `stackOutputs`. -/
def stackStates (sg tn : ℚ → ℚ) : List StatefulGRU → Mat → List StatefulGRU
  | [], _ => []
  | l :: rest, h_curr => (l.call sg tn h_curr).2 :: stackStates sg tn rest (l.call sg tn h_curr).1

/-- Error value of the `ValueError` raised by `Orthogonal.__call__`
(orthogonal.py lines 48-51): it reports the number of vectors (flattened
rows) and the number of dimensions (flattened columns). -/
structure OrthErr where
  rows : Nat
  cols : Nat
deriving DecidableEq

/-- Shape of a matrix as numpy reports it: (number of rows, row width). -/
def dims (m : Mat) : Nat × Nat := (m.length, (m.head?.getD []).length)

/-- Row-major flattening of a matrix (the data layout `reshape` preserves). -/
def flatten (m : Mat) : List ℚ := m.foldr (fun r acc => r ++ acc) []

/-- View of flat row-major data as a (rows × cols) matrix (numpy `reshape`). -/
def matOfFlat (rows cols : Nat) (d : List ℚ) : Mat :=
  (List.range rows).map (fun i => (d.drop (i * cols)).take cols)

/-- `Orthogonal` initializer (orthogonal.py lines 10-37): holds `scale`. -/
structure Orthogonal where
  scale : ℚ
deriving DecidableEq

/-- `Orthogonal.__call__(array)` (orthogonal.py lines 41-58).  The array is
its shape plus its flattened row-major contents `data`; the result is the
new flattened contents, or the `ValueError` data.  The standard-normal
sampler (`numpy.random.standard_normal`, keyed by the process-global seed)
and the SVD (`numpy.linalg.svd`, returning `u`, singular values, `v`) are
external collaborators, passed as the abstract `sample` and `svd`.
Control flow: an empty shape is filled with `scale`; a zero-size array is
left untouched; otherwise the flat shape is `(shape[0], prod shape[1:])`,
`rows > cols` raises, and else the sampled matrix's SVD factor matching the
flat shape (`u` if its dims agree, else `v`) is reshaped back and scaled. -/
def Orthogonal.call (o : Orthogonal) (shape : List Nat) (data : List ℚ)
    (sample : Nat → Nat → Mat) (svd : Mat → Mat × List ℚ × Mat) :
    Except OrthErr (List ℚ) :=
  match shape with
  | [] => Except.ok [o.scale]
  | r :: rest =>
    if (r :: rest).prod = 0 then Except.ok data
    else
      let cols := rest.prod
      if cols < r then Except.error { rows := r, cols := cols }
      else
        let a := sample r cols
        let p := svd a
        let q := if dims p.1 = (r, cols) then p.1 else p.2.2
        Except.ok ((flatten q).map (fun t => t * o.scale))

/-- Gram matrix of the rows of `q`: entry (i, j) is `row_i · row_j`, i.e.
the matrix product `q * qᵀ`. -/
def matRowGram (q : Mat) : Mat :=
  q.map (fun r1 => q.map (fun r2 => dot r1 r2))

/-- Identity matrix of size n. -/
def idMat (n : Nat) : Mat :=
  (List.range n).map (fun i => (List.range n).map (fun j => if i = j then (1 : ℚ) else 0))

/-- Transpose of a rectangular matrix (used to state `Qᵀ Q`). -/
def transpose (m : Mat) : Mat :=
  (List.range ((m.head?.getD []).length)).map (fun j => m.map (fun row => row.getD j 0))

/-- Concrete fixture: a 1×1 linear unit with weight 1 and bias 0. -/
def lin1 : Linear := { W := [[1]], b := [0] }

/-- Concrete fixture: a GRU weight configuration of six `lin1` units. -/
def gb1 : GRUBase :=
  { W_r := lin1, U_r := lin1, W_z := lin1, U_z := lin1, W := lin1, U := lin1 }

/-- Concrete fixture: a CPU variable holding the 1×1 batch [[1]]. -/
def vcpu1 : Variable := { data := [[1]], device := Device.cpu }

/-- Concrete fixture: a fresh CPU stateful GRU cell over `gb1`. -/
def sgru1 : StatefulGRU := { base := gb1, device := Device.cpu, h := none }

/-- Concrete fixture: a one-layer stacked stateful GRU. -/
def sstack1 : StackedStatefulGRU := { layers := [sgru1], num_layers := 1 }

lemma matAdd_comm (a b : Mat) : matAdd a b = matAdd b a := by
  unfold matAdd map2
  exact List.zipWith_comm_of_comm _
    (fun u v => List.zipWith_comm_of_comm _ (fun s t => add_comm s t) u v) a b

/-- Claim C1: for every weight configuration, elementwise nonlinearities, and
hidden/input batches, the stateless GRU's `__call__(h, x)` returns exactly the
`h'` of the closed-form recurrence of §4.2 recomputed from the same weights,
and the cell after the call is unchanged (no state is retained). -/
theorem gru_call_closed_form (g : GRUBase) (sg tn : ℚ → ℚ) (h x : Mat) :
    (GRU.call g sg tn h x).1 = gruRecurrence g sg tn h x ∧
      (GRU.call g sg tn h x).2 = g :=
  ⟨rfl, rfl⟩

lemma statefulGRU_call_none (g : GRUBase) (d : Device) (sg tn : ℚ → ℚ) (x : Mat) :
    StatefulGRU.call { base := g, device := d, h := none } sg tn x =
      (statefulFirstCall g sg tn x,
       { base := g, device := d,
         h := some { data := statefulFirstCall g sg tn x, device := d } }) :=
  rfl

lemma statefulGRU_call_some (g : GRUBase) (d : Device) (hv : Variable)
    (sg tn : ℚ → ℚ) (x : Mat) :
    StatefulGRU.call { base := g, device := d, h := some hv } sg tn x =
      (gruRecurrence g sg tn hv.data x,
       { base := g, device := d,
         h := some { data := gruRecurrence g sg tn hv.data x, device := d } }) := by
  have hcomm :
      matAdd
        (matHad (matMap sg (matAdd (Linear.apply g.W_z x) (Linear.apply g.U_z hv.data)))
          (matMap tn (matAdd (Linear.apply g.W x)
            (Linear.apply g.U
              (matHad (matMap sg (matAdd (Linear.apply g.W_r x) (Linear.apply g.U_r hv.data)))
                hv.data)))))
        (matHad
          (oneSub (matMap sg (matAdd (Linear.apply g.W_z x) (Linear.apply g.U_z hv.data))))
          hv.data) =
      gruRecurrence g sg tn hv.data x := by
    unfold gruRecurrence
    exact matAdd_comm _ _
  unfold StatefulGRU.call
  rw [← hcomm]

/-- Claim C2: the stateful GRU's `__call__(x)` computes, when the internal
state is absent, `z = sigmoid(W_z(x))`, `h_bar = tanh(W(x))`,
`h' = z ⊙ h_bar` (no `U_r`, `U_z`, `U` term and no `(1-z)⊙h` term), and when
the state is present, the full recurrence of §4.2; in both cases `h'` is
returned and becomes the new internal state. -/
theorem statefulGRU_call_formula (s : StatefulGRU) (sg tn : ℚ → ℚ) (x : Mat) :
    StatefulGRU.call s sg tn x =
      (match s.h with
       | none =>
         (statefulFirstCall s.base sg tn x,
          { s with h := some { data := statefulFirstCall s.base sg tn x,
                               device := s.device } })
       | some hv =>
         (gruRecurrence s.base sg tn hv.data x,
          { s with h := some { data := gruRecurrence s.base sg tn hv.data x,
                               device := s.device } })) := by
  obtain ⟨g, d, hst⟩ := s
  cases hst with
  | none => exact statefulGRU_call_none g d sg tn x
  | some hv => exact statefulGRU_call_some g d hv sg tn x

/-- Claim C7: `reset_state()` followed by `__call__(x)` produces the same
output (indeed the same output for any device of the fresh cell) as the first
call on a freshly constructed cell with identical weights. -/
theorem statefulGRU_reset_eq_fresh (s : StatefulGRU) (d : Device)
    (sg tn : ℚ → ℚ) (x : Mat) :
    ((s.reset_state).call sg tn x).1 = ((StatefulGRU.init s.base d).call sg tn x).1 :=
  rfl

/-- Claim C8: on a CPU cell, `set_state(h)` followed by reading the retained
internal state yields `h`'s data bit-for-bit, and for a CPU-resident `h` the
retained state is `h` itself, unchanged. -/
theorem statefulGRU_set_state_roundtrip (s : StatefulGRU) (hv : Variable)
    (hc : s.device = Device.cpu) :
    ((s.set_state hv).1.h).map Variable.data = some hv.data ∧
      (hv.device = Device.cpu → (s.set_state hv).1.h = some hv) := by
  constructor
  · simp [StatefulGRU.set_state, hc, Variable.to_cpu]
  · intro hvd
    obtain ⟨d, dev⟩ := hv
    simp at hvd
    simp [StatefulGRU.set_state, hc, Variable.to_cpu, hvd]

/-- Witness for C8 at a concrete CPU cell and CPU variable. -/
theorem statefulGRU_set_state_roundtrip_witness :
    (StatefulGRU.init gb1 Device.cpu).device = Device.cpu ∧
      ((((StatefulGRU.init gb1 Device.cpu).set_state vcpu1).1.h).map Variable.data
          = some vcpu1.data ∧
        (vcpu1.device = Device.cpu →
          ((StatefulGRU.init gb1 Device.cpu).set_state vcpu1).1.h = some vcpu1)) :=
  ⟨rfl, statefulGRU_set_state_roundtrip (StatefulGRU.init gb1 Device.cpu) vcpu1 rfl⟩

/-- Claim C10: `set_state(h)` first transfers the caller's variable in place
to the cell's device (`to_cpu` for the numpy backend, `to_gpu` otherwise) —
its data is preserved, its device becomes the cell's — and then retains that
very transferred variable as the internal state; weights and cell device are
untouched. -/
theorem statefulGRU_set_state_alias (s : StatefulGRU) (hv : Variable) :
    ((s.set_state hv).2).data = hv.data ∧
      ((s.set_state hv).2).device = s.device ∧
      (s.set_state hv).1.h = some ((s.set_state hv).2) ∧
      (s.set_state hv).1.base = s.base ∧
      (s.set_state hv).1.device = s.device := by
  obtain ⟨g, d, hst⟩ := s
  cases d <;>
    simp [StatefulGRU.set_state, Variable.to_cpu, Variable.to_gpu]

lemma splitCols_one (m : Mat) : splitCols m 1 = [m] := by
  unfold splitCols
  have h1 : List.range 1 = [0] := rfl
  rw [h1]
  simp

/-- Claim C4: a stacked stateless GRU built with `num_layers = 1` (one layer
holding weights `g`) produces from `__call__(h, x)` exactly the output of the
single stateless GRU cell with the same weights on `(h, x)`. -/
theorem stackedStateless_one_layer (g : GRUBase) (sg tn : ℚ → ℚ) (h x : Mat) :
    StackedStatelessGRU.call { layers := [g], num_layers := 1 } sg tn h x =
      (GRU.call g sg tn h x).1 := by
  unfold StackedStatelessGRU.call
  rw [splitCols_one]
  rfl

lemma runLayers_eq (sg tn : ℚ → ℚ) (ls : List StatefulGRU) (x : Mat) :
    runLayers sg tn ls x = (stackOutputs sg tn ls x, stackStates sg tn ls x) := by
  induction ls generalizing x with
  | nil => rfl
  | cons l rest ih => simp [runLayers, stackOutputs, stackStates, ih]

/-- Claim C3 (amended): for `top_n` either omitted or at least 1,
`__call__(x, top_n)` feeds `x` to layer 0, feeds each later layer the
previous layer's output, updates every layer's internal state accordingly,
keeps `num_layers`, and returns the concatenation along the feature axis of
the outputs of the last `top_n` layers in layer order, `top_n` defaulting to
the recorded number of layers. -/
theorem stackedStateful_call_top_n (st : StackedStatefulGRU) (sg tn : ℚ → ℚ)
    (x : Mat) (top_n : Option Nat) (hn : 1 ≤ top_n.getD st.num_layers) :
    (st.call sg tn x top_n).1 =
      concatCols ((stackOutputs sg tn st.layers x).drop
        ((stackOutputs sg tn st.layers x).length - top_n.getD st.num_layers)) ∧
      (st.call sg tn x top_n).2.layers = stackStates sg tn st.layers x ∧
      (st.call sg tn x top_n).2.num_layers = st.num_layers := by
  unfold StackedStatefulGRU.call
  simp only [runLayers_eq, lastSlice]
  rw [if_neg (by omega)]
  exact ⟨rfl, trivial, trivial⟩

/-- Counterexample to C3 as stated: at `top_n = 0` the Python slice
`h_list[-0:]` is the whole list, so the one-layer stack returns its full
output `[[1]]`, while the concatenation of the outputs of the last 0 layers
is empty. -/
theorem stackedStateful_top_zero_cex :
    (StackedStatefulGRU.call sstack1 (fun t => t) (fun t => t) [[1]] (some 0)).1 = [[1]] ∧
      concatCols ((stackOutputs (fun t => t) (fun t => t) sstack1.layers [[1]]).drop
        ((stackOutputs (fun t => t) (fun t => t) sstack1.layers [[1]]).length - 0)) = [] ∧
      ([[(1 : ℚ)]] : Mat) ≠ [] := by
  refine ⟨?_, ?_, by decide⟩
  · simp [StackedStatefulGRU.call, runLayers, StatefulGRU.call, sstack1, sgru1, gb1, lin1,
      Linear.apply, dot, matHad, matMap, map2, concatCols, lastSlice]
  · simp [Nat.sub_zero, List.drop_length, concatCols]

/-- Witness for C3 (amended) at the one-layer stack with `top_n = 1`. -/
theorem stackedStateful_call_top_n_witness :
    1 ≤ (some 1).getD sstack1.num_layers ∧
      ((StackedStatefulGRU.call sstack1 (fun t => t) (fun t => t) [[1]] (some 1)).1 =
          concatCols ((stackOutputs (fun t => t) (fun t => t) sstack1.layers [[1]]).drop
            ((stackOutputs (fun t => t) (fun t => t) sstack1.layers [[1]]).length -
              (some 1).getD sstack1.num_layers)) ∧
        (StackedStatefulGRU.call sstack1 (fun t => t) (fun t => t) [[1]] (some 1)).2.layers =
          stackStates (fun t => t) (fun t => t) sstack1.layers [[1]] ∧
        (StackedStatefulGRU.call sstack1 (fun t => t) (fun t => t) [[1]] (some 1)).2.num_layers =
          sstack1.num_layers) :=
  ⟨by decide, stackedStateful_call_top_n sstack1 (fun t => t) (fun t => t) [[1]] (some 1) (by decide)⟩

/-- Claim C5 (amended): for every array of nonzero size whose flattened row
count exceeds its flattened column count, the initializer raises the
`ValueError` reporting both counts, for every sampler and SVD (hence
deterministically, regardless of random seed). -/
theorem orthogonal_rows_gt_cols_error (o : Orthogonal) (r : Nat) (rest : List Nat)
    (data : List ℚ) (sample : Nat → Nat → Mat) (svd : Mat → Mat × List ℚ × Mat)
    (hlt : rest.prod < r) (hpos : 0 < rest.prod) :
    Orthogonal.call o (r :: rest) data sample svd =
      Except.error { rows := r, cols := rest.prod } := by
  have h1 : (r :: rest).prod ≠ 0 := by
    rw [List.prod_cons]
    exact Nat.mul_ne_zero (by omega) (by omega)
  simp only [Orthogonal.call]
  rw [if_neg h1, if_pos hlt]

/-- Counterexample to C5 as stated: the zero-size array of shape (3, 0) has
rows = 3 > cols = 0, yet the initializer returns without error, leaving the
array unchanged — the `array.size` guard skips the validation. -/
theorem orthogonal_rows_gt_cols_zero_size_cex :
    Orthogonal.call { scale := 1 } [3, 0] [] (fun _ _ => []) (fun _ => ([], [], [])) =
        Except.ok [] ∧
      List.prod [0] < 3 :=
  ⟨rfl, by decide⟩

/-- Witness for C5 (amended) at shape (3, 2). -/
theorem orthogonal_rows_gt_cols_error_witness :
    (List.prod [2] < 3 ∧ 0 < List.prod [2]) ∧
      Orthogonal.call { scale := 1 } (3 :: [2]) (List.replicate 6 0)
          (fun _ _ => []) (fun _ => ([], [], [])) =
        Except.error { rows := 3, cols := List.prod [2] } :=
  ⟨by decide,
    orthogonal_rows_gt_cols_error { scale := 1 } 3 [2] (List.replicate 6 0)
      (fun _ _ => []) (fun _ => ([], [], [])) (by decide) (by decide)⟩

/-- Claim C9: for a non-empty shape of total element count zero the
initializer returns without error and leaves the array contents unchanged,
for every sampler and SVD — in particular (see the witness, shape (3, 0))
the rows > cols validation is skipped on zero-size arrays. -/
theorem orthogonal_zero_size_noop (o : Orthogonal) (r : Nat) (rest : List Nat)
    (data : List ℚ) (sample : Nat → Nat → Mat) (svd : Mat → Mat × List ℚ × Mat)
    (hz : (r :: rest).prod = 0) :
    Orthogonal.call o (r :: rest) data sample svd = Except.ok data := by
  simp only [Orthogonal.call]
  rw [if_pos hz]

/-- Witness for C9 at the rows > cols zero-size shape (3, 0). -/
theorem orthogonal_zero_size_noop_witness :
    List.prod (3 :: [0]) = 0 ∧
      Orthogonal.call { scale := 1 } (3 :: [0]) [] (fun _ _ => [])
          (fun _ => ([], [], [])) =
        Except.ok [] :=
  ⟨by decide,
    orthogonal_zero_size_noop { scale := 1 } 3 [0] [] (fun _ _ => [])
      (fun _ => ([], [], [])) (by decide)⟩

@[simp] lemma flatten_cons (r : Vec) (m : Mat) : flatten (r :: m) = r ++ flatten m := rfl

lemma flatten_map (f : ℚ → ℚ) (m : Mat) :
    flatten (m.map (List.map f)) = (flatten m).map f := by
  induction m with
  | nil => rfl
  | cons r m ih => simp [ih]

lemma matOfFlat_flatten (cols : Nat) (m : Mat) (hrow : ∀ row ∈ m, row.length = cols) :
    matOfFlat m.length cols (flatten m) = m := by
  induction m with
  | nil => rfl
  | cons r m ih =>
    have hr : r.length = cols := hrow r (List.mem_cons_self r m)
    have hrest : ∀ row ∈ m, row.length = cols :=
      fun row hm => hrow row (List.mem_cons_of_mem r hm)
    unfold matOfFlat
    rw [List.length_cons, List.range_succ_eq_map, List.map_cons, List.map_map]
    have h0 : ((flatten (r :: m)).drop (0 * cols)).take cols = r := by
      simp only [Nat.zero_mul, List.drop_zero, flatten_cons]
      exact List.take_left' hr
    have h1 : (List.range m.length).map
        ((fun i => ((flatten (r :: m)).drop (i * cols)).take cols) ∘ Nat.succ) = m := by
      have h2 : ∀ i ∈ List.range m.length,
          ((fun i => ((flatten (r :: m)).drop (i * cols)).take cols) ∘ Nat.succ) i =
            ((flatten m).drop (i * cols)).take cols := by
        intro i _
        simp only [Function.comp_apply, flatten_cons, Nat.succ_mul]
        rw [Nat.add_comm, ← hr, ← List.drop_drop, List.drop_left]
      rw [List.map_congr_left h2]
      have h3 := ih hrest
      unfold matOfFlat at h3
      exact h3
    rw [h0, h1]

lemma dot_scale (s : ℚ) (u v : Vec) :
    dot (u.map (fun t => t * s)) (v.map (fun t => t * s)) = s * s * dot u v := by
  induction u generalizing v with
  | nil => simp [dot]
  | cons a u ih =>
    cases v with
    | nil => simp [dot]
    | cons b v =>
      simp only [List.map_cons, dot, List.zipWith_cons_cons, List.sum_cons]
      have h := ih v
      simp only [dot] at h
      rw [h]
      ring

lemma matRowGram_scale (s : ℚ) (q : Mat) :
    matRowGram (q.map (List.map (fun t => t * s))) =
      matMap (fun t => s * s * t) (matRowGram q) := by
  unfold matRowGram matMap
  simp only [List.map_map]
  apply List.map_congr_left
  intro r1 _
  simp only [Function.comp_apply, List.map_map]
  apply List.map_congr_left
  intro r2 _
  exact dot_scale s r1 r2

/-- Claim C6 (amended): for a nonzero-size shape with rows ≤ cols, the
initializer samples a matrix, takes its SVD, selects `u` when `u`'s dims
match the flat shape and `v` otherwise, reshapes the selected factor `q`
back, and scales it by `scale`; whenever the selected factor is a
well-formed rows × cols matrix with orthonormal rows (`q qᵀ = I`, which an
exact SVD guarantees), the output `Q`, reshaped to (rows, cols), is
`scale · q` and satisfies `Q Qᵀ = scale² · I` over the rows — the rows of
`Q` are orthogonal of norm `scale` (exactly, in this exact-arithmetic
model; in floating point, within tolerance).  The spec's `Qᵗ Q` form holds
only in the square case; see the counterexample. -/
theorem orthogonal_scaled_rows_orthonormal
    (o : Orthogonal) (r : Nat) (rest : List Nat) (data : List ℚ)
    (sample : Nat → Nat → Mat) (svd : Mat → Mat × List ℚ × Mat) (q : Mat)
    (hq : q = (if dims (svd (sample r rest.prod)).1 = (r, rest.prod)
        then (svd (sample r rest.prod)).1 else (svd (sample r rest.prod)).2.2))
    (hr0 : 0 < r) (hrc : r ≤ rest.prod)
    (hlen : q.length = r) (hrow : ∀ row ∈ q, row.length = rest.prod)
    (horth : matRowGram q = idMat r) :
    Orthogonal.call o (r :: rest) data sample svd =
        Except.ok ((flatten q).map (fun t => t * o.scale)) ∧
      matOfFlat r rest.prod ((flatten q).map (fun t => t * o.scale)) =
        q.map (List.map (fun t => t * o.scale)) ∧
      matRowGram (matOfFlat r rest.prod ((flatten q).map (fun t => t * o.scale))) =
        matMap (fun t => o.scale * o.scale * t) (idMat r) := by
  have hprod : (r :: rest).prod ≠ 0 := by
    rw [List.prod_cons]
    exact Nat.mul_ne_zero (by omega) (by omega)
  have hcall : Orthogonal.call o (r :: rest) data sample svd =
      Except.ok ((flatten q).map (fun t => t * o.scale)) := by
    simp only [Orthogonal.call]
    rw [if_neg hprod, if_neg (by omega), hq]
  have hlen2 : (q.map (List.map (fun t => t * o.scale))).length = r := by
    rw [List.length_map, hlen]
  have hwrap : matOfFlat r rest.prod ((flatten q).map (fun t => t * o.scale)) =
      q.map (List.map (fun t => t * o.scale)) := by
    rw [← flatten_map, ← hlen2]
    refine matOfFlat_flatten rest.prod _ ?_
    intro row hm
    obtain ⟨row0, hrow0, hfr⟩ := List.mem_map.mp hm
    rw [← hfr, List.length_map]
    exact hrow row0 hrow0
  refine ⟨hcall, hwrap, ?_⟩
  rw [hwrap, matRowGram_scale, horth]

/-- Counterexample to C6 as stated: shape (1, 2) with scale 1, the sampled
matrix [[1, 0]] and its exact SVD u = [[1]], s = [1], v = [[1, 0]] (both
factors have orthonormal rows).  The code selects v and outputs Q = [[1, 0]],
whose rows are orthonormal — but the spec's `Qᵗ Q`, a 2×2 matrix of rank 1,
is [[1, 0], [0, 0]] ≠ scale² · I. -/
theorem orthogonal_QtQ_cex :
    Orthogonal.call { scale := 1 } [1, 2] [0, 0] (fun _ _ => [[1, 0]])
        (fun _ => ([[1]], [1], [[1, 0]])) = Except.ok [1, 0] ∧
      matRowGram [[(1 : ℚ)]] = idMat 1 ∧
      matRowGram [[(1 : ℚ), 0]] = idMat 1 ∧
      matRowGram (transpose (matOfFlat 1 2 [1, 0])) = [[1, 0], [0, 0]] ∧
      matMap (fun t => 1 * 1 * t) (idMat 2) = [[1, 0], [0, 1]] ∧
      ([[(1 : ℚ), 0], [0, 0]] : Mat) ≠ [[1, 0], [0, 1]] := by
  refine ⟨?_, ?_, ?_, ?_, ?_, ?_⟩
  · with_unfolding_all rfl
  · with_unfolding_all rfl
  · with_unfolding_all rfl
  · with_unfolding_all rfl
  · with_unfolding_all rfl
  · intro hcon
    injection hcon with h1 h2
    injection h2 with h3 h4
    injection h3 with h5 h6
    injection h6 with h7 h8
    exact zero_ne_one h7

/-- Witness for C6 (amended) at the concrete instance of the counterexample:
the selected factor [[1, 0]] has orthonormal rows and the theorem applies. -/
theorem orthogonal_scaled_rows_orthonormal_witness :
    (([[(1 : ℚ), 0]] : Mat) =
        (if dims ((fun _ => ([[(1 : ℚ)]], [(1 : ℚ)], [[(1 : ℚ), 0]]))
              ((fun _ _ => [[(1 : ℚ), 0]]) 1 (List.prod [2]))).1 = (1, List.prod [2])
          then ((fun _ => ([[(1 : ℚ)]], [(1 : ℚ)], [[(1 : ℚ), 0]]))
              ((fun _ _ => [[(1 : ℚ), 0]]) 1 (List.prod [2]))).1
          else ((fun _ => ([[(1 : ℚ)]], [(1 : ℚ)], [[(1 : ℚ), 0]]))
              ((fun _ _ => [[(1 : ℚ), 0]]) 1 (List.prod [2]))).2.2)) ∧
      0 < 1 ∧ 1 ≤ List.prod [2] ∧
      ([[(1 : ℚ), 0]] : Mat).length = 1 ∧
      (∀ row ∈ ([[(1 : ℚ), 0]] : Mat), row.length = List.prod [2]) ∧
      matRowGram [[(1 : ℚ), 0]] = idMat 1 ∧
      (Orthogonal.call { scale := 1 } (1 :: [2]) [0, 0] (fun _ _ => [[(1 : ℚ), 0]])
          (fun _ => ([[(1 : ℚ)]], [(1 : ℚ)], [[(1 : ℚ), 0]])) =
          Except.ok ((flatten [[(1 : ℚ), 0]]).map (fun t => t * ({ scale := 1 } : Orthogonal).scale)) ∧
        matOfFlat 1 (List.prod [2])
            ((flatten [[(1 : ℚ), 0]]).map (fun t => t * ({ scale := 1 } : Orthogonal).scale)) =
          ([[(1 : ℚ), 0]] : Mat).map (List.map (fun t => t * ({ scale := 1 } : Orthogonal).scale)) ∧
        matRowGram (matOfFlat 1 (List.prod [2])
            ((flatten [[(1 : ℚ), 0]]).map (fun t => t * ({ scale := 1 } : Orthogonal).scale))) =
          matMap (fun t => ({ scale := 1 } : Orthogonal).scale * ({ scale := 1 } : Orthogonal).scale * t)
            (idMat 1)) :=
  ⟨by with_unfolding_all rfl, by decide, by decide, by decide,
    by decide, by with_unfolding_all rfl,
    orthogonal_scaled_rows_orthonormal { scale := 1 } 1 [2] [0, 0]
      (fun _ _ => [[(1 : ℚ), 0]]) (fun _ => ([[(1 : ℚ)]], [(1 : ℚ)], [[(1 : ℚ), 0]]))
      [[(1 : ℚ), 0]] (by with_unfolding_all rfl) (by decide) (by decide)
      (by decide) (by decide) (by with_unfolding_all rfl)⟩
